import Mathlib

/-!
Verification of the local service supervisor in
`penguin-tui/packages/desktop/src-tauri/src/lib.rs`.

The Rust code is shallowly embedded: hostnames are lists of characters
(`String::contains`, `starts_with` become list operations), the bounded log
is a list of strings mutated by the same push-back / pop-front discipline as
the `VecDeque`, the oneshot-plus-shared readiness channel is a small state
machine over event traces, and the network-facing functions are parametrised
over the outcomes of the external calls (URL parsing, client build, request
send, dialog answer) that the code branches on.
-/

namespace Penguin

/-! ## Hostname normalization (`normalize_hostname_for_url`) -/

/-- A hostname, modelled as its character sequence. -/
abbrev Hostname := List Char

/-- Predicate for `str.starts_with('[')` on the character sequence. -/
def startsWithBracket (h : Hostname) : Prop := h.head? = some '['

instance (h : Hostname) : Decidable (startsWithBracket h) := by
  unfold startsWithBracket; infer_instance

/--
Embedding of `normalize_hostname_for_url` (lib.rs:423-438):
wildcard bind addresses map to loopback equivalents, an IPv6 literal
(contains `:`) not already bracketed gets bracketed, anything else is
returned unchanged.
-/
def normalize_hostname_for_url (h : Hostname) : Hostname :=
  if h = "0.0.0.0".data then "127.0.0.1".data
  else if h = "::".data then "[::1]".data
  else if ':' ∈ h ∧ ¬ startsWithBracket h then '[' :: h ++ [']']
  else h

/-! ## Log Ring (`LogState`, the ingestion loop in `spawn_sidecar`, `get_logs`) -/

/-- Constant `MAX_LOG_ENTRIES` (lib.rs:64). -/
def MAX_LOG_ENTRIES : Nat := 200

/--
The `while logs.len() > MAX_LOG_ENTRIES { logs.pop_front(); }` loop of the
ingestion task (lib.rs:183-185): drop from the front until at most the bound
remains.
-/
def trimLog (l : List String) : List String :=
  if l.length > MAX_LOG_ENTRIES then trimLog l.tail else l
termination_by l.length
decreasing_by
  rename_i hgt
  cases l with
  | nil => simp at hgt
  | cons a t => simp

/-- One `logs.push_back(entry)` followed by the eviction loop (lib.rs:181-185). -/
def logAppend (l : List String) (entry : String) : List String :=
  trimLog (l ++ [entry])

/-- The log contents after appending the entries of `es`, oldest first, to an
initially empty buffer. -/
def buildLog (es : List String) : List String :=
  es.foldl logAppend []

/-- Embedding of `get_logs` (lib.rs:88-97): the snapshot is the concatenation
of the retained entries in order (`join("")`). -/
def get_logs (l : List String) : String :=
  String.join l

/-! ### Log ring lemmas -/

theorem trimLog_of_le (l : List String) (h : l.length ≤ MAX_LOG_ENTRIES) :
    trimLog l = l := by
  unfold trimLog
  simp [Nat.not_lt.mpr h]

theorem trimLog_cons_of_len (a : String) (t : List String)
    (h : MAX_LOG_ENTRIES ≤ t.length) :
    trimLog (a :: t) = trimLog t := by
  rw [trimLog]
  have hgt : (a :: t).length > MAX_LOG_ENTRIES := by
    simp only [List.length_cons]
    omega
  rw [if_pos hgt]
  simp only [List.tail_cons]

theorem trimLog_eq_drop (l : List String) :
    trimLog l = l.drop (l.length - MAX_LOG_ENTRIES) := by
  induction l using trimLog.induct with
  | case1 l hgt ih =>
    rw [trimLog, if_pos hgt]
    cases l with
    | nil => simp at hgt
    | cons a t =>
      simp only [List.tail_cons] at ih ⊢
      rw [ih]
      simp only [List.length_cons] at hgt ⊢
      have h1 : t.length + 1 - MAX_LOG_ENTRIES = (t.length - MAX_LOG_ENTRIES) + 1 := by
        omega
      rw [h1, List.drop_succ_cons]
  | case2 l hle =>
    rw [trimLog, if_neg hle]
    have : l.length - MAX_LOG_ENTRIES = 0 := by omega
    simp [this]

theorem logAppend_length_le (l : List String) (e : String)
    (h : l.length ≤ MAX_LOG_ENTRIES) :
    (logAppend l e).length ≤ MAX_LOG_ENTRIES := by
  unfold logAppend
  rw [trimLog_eq_drop]
  simp only [List.length_drop, List.length_append, List.length_singleton]
  omega

/-- Suffix of the last `n` entries of `l` (all of `l` when shorter). -/
def lastN (n : Nat) (l : List String) : List String :=
  l.drop (l.length - n)

theorem lastN_of_le (n : Nat) (l : List String) (h : l.length ≤ n) :
    lastN n l = l := by
  unfold lastN
  have : l.length - n = 0 := by omega
  simp [this]

theorem lastN_cons_of_ge (n : Nat) (a : String) (t : List String)
    (h : n ≤ t.length) :
    lastN n (a :: t) = lastN n t := by
  unfold lastN
  simp only [List.length_cons]
  have h1 : t.length + 1 - n = (t.length - n) + 1 := by omega
  rw [h1, List.drop_succ_cons]

theorem foldl_logAppend_eq_lastN (es : List String) :
    ∀ l : List String, l.length ≤ MAX_LOG_ENTRIES →
      es.foldl logAppend l = lastN MAX_LOG_ENTRIES (l ++ es) := by
  induction es with
  | nil =>
    intro l hl
    simp [lastN_of_le _ _ hl]
  | cons e es ih =>
    intro l hl
    simp only [List.foldl_cons]
    rw [ih (logAppend l e) (logAppend_length_le l e hl)]
    unfold logAppend
    rw [trimLog_eq_drop]
    rcases Nat.lt_or_ge (l.length + 1) (MAX_LOG_ENTRIES + 1) with hlt | hge
    · have h0 : (l ++ [e]).length - MAX_LOG_ENTRIES = 0 := by
        simp only [List.length_append, List.length_singleton]
        omega
      rw [h0]
      simp
    · -- l.length = MAX_LOG_ENTRIES exactly; one entry is evicted from the front
      have hlen : l.length = MAX_LOG_ENTRIES := by omega
      cases l with
      | nil =>
        simp [MAX_LOG_ENTRIES] at hlen
      | cons a t =>
        simp only [List.length_cons] at hlen
        have h1 : (a :: t ++ [e]).length - MAX_LOG_ENTRIES = 1 := by
          simp only [List.cons_append, List.length_cons, List.length_append,
            List.length_nil]
          omega
        rw [h1]
        have hd : (a :: t ++ [e]).drop 1 = t ++ [e] := rfl
        rw [hd]
        have hge2 : MAX_LOG_ENTRIES ≤ (t ++ e :: es).length := by
          simp only [List.length_append, List.length_cons]
          omega
        calc lastN MAX_LOG_ENTRIES ((t ++ [e]) ++ es)
            = lastN MAX_LOG_ENTRIES (t ++ e :: es) := by
              simp only [List.append_assoc, List.singleton_append]
          _ = lastN MAX_LOG_ENTRIES (a :: (t ++ e :: es)) :=
              (lastN_cons_of_ge _ _ _ hge2).symm
          _ = lastN MAX_LOG_ENTRIES ((a :: t) ++ e :: es) := by
              simp only [List.cons_append]

theorem buildLog_eq_lastN (es : List String) :
    buildLog es = lastN MAX_LOG_ENTRIES es := by
  unfold buildLog
  have h := foldl_logAppend_eq_lastN es [] (by simp [MAX_LOG_ENTRIES])
  simpa using h

/-! ## Readiness Broadcaster (`ServerState.status`: a `oneshot` channel behind
`future::Shared`, lib.rs:39-59, consumed by `ensure_server_ready`) -/

/-- Resolved readiness data `ServerReadyData` (lib.rs:33-37). -/
structure ServerReadyData where
  url : String
  password : Option String
deriving DecidableEq

deriving instance DecidableEq for Except

/-- Producer-side events on the oneshot channel: the setup task either sends
its result (`tx.send(res)`, lib.rs:388) or drops the sender without
sending. -/
inductive ChannelEvent where
  | send (r : Except String ServerReadyData)
  | dropSender
deriving DecidableEq

/-- State of the shared readiness cell: untouched, holding a published result,
or closed because the sender was dropped without publishing. -/
inductive CellState where
  | pending
  | published (r : Except String ServerReadyData)
  | closed
deriving DecidableEq

/-- One producer event applied to the cell. A `oneshot::Sender` is consumed by
`send` and by being dropped, so after the first event the cell never changes
again: `published` and `closed` are absorbing. -/
def channelStep (s : CellState) (e : ChannelEvent) : CellState :=
  match s, e with
  | .pending, .send r => .published r
  | .pending, .dropSender => .closed
  | .published r, _ => .published r
  | .closed, _ => .closed

/-- Cell state reached from the initial `pending` state by a trace of
producer events. -/
def runTrace (evs : List ChannelEvent) : CellState :=
  evs.foldl channelStep .pending

/-- Number of events in the trace that actually publish a value (a `send`
arriving while the cell is still pending). -/
def countPublishes : CellState → List ChannelEvent → Nat
  | _, [] => 0
  | s, e :: rest =>
    (match s, e with
     | .pending, .send _ => 1
     | _, _ => 0) + countPublishes (channelStep s e) rest

/--
Embedding of `ensure_server_ready` (lib.rs:99-106) as observed by one
consumer of the shared receiver: `none` while the cell is pending (the
consumer suspends), the published `Result` itself once published, and the
mapped `RecvError` message when the sender was dropped without sending.
-/
def ensure_server_ready : CellState → Option (Except String ServerReadyData)
  | .pending => none
  | .published r => some r
  | .closed => some (.error "Failed to get server status")

/-! ### Broadcaster lemmas -/

theorem channelStep_of_ne_pending (s : CellState) (e : ChannelEvent)
    (h : s ≠ .pending) : channelStep s e = s := by
  cases s with
  | pending => exact absurd rfl h
  | published r => cases e <;> rfl
  | closed => cases e <;> rfl

theorem foldl_channelStep_of_ne_pending (evs : List ChannelEvent)
    (s : CellState) (h : s ≠ .pending) :
    evs.foldl channelStep s = s := by
  induction evs with
  | nil => rfl
  | cons e rest ih =>
    simp only [List.foldl_cons, channelStep_of_ne_pending s e h]
    exact ih

theorem countPublishes_of_ne_pending (evs : List ChannelEvent)
    (s : CellState) (h : s ≠ .pending) :
    countPublishes s evs = 0 := by
  induction evs with
  | nil => rfl
  | cons e rest ih =>
    unfold countPublishes
    rw [channelStep_of_ne_pending s e h]
    cases s with
    | pending => exact absurd rfl h
    | published r => cases e <;> simpa using ih
    | closed => cases e <;> simpa using ih

theorem countPublishes_le_one (evs : List ChannelEvent) :
    countPublishes .pending evs ≤ 1 := by
  cases evs with
  | nil => simp [countPublishes]
  | cons e rest =>
    unfold countPublishes
    cases e with
    | send r =>
      have h0 : countPublishes (channelStep .pending (.send r)) rest = 0 :=
        countPublishes_of_ne_pending rest _ (by simp [channelStep])
      simp [h0]
    | dropSender =>
      have h0 : countPublishes (channelStep .pending .dropSender) rest = 0 :=
        countPublishes_of_ne_pending rest _ (by simp [channelStep])
      simp [h0]

theorem ensure_persist (s : CellState) (v : Except String ServerReadyData)
    (h : ensure_server_ready s = some v) (e : ChannelEvent) :
    ensure_server_ready (channelStep s e) = some v := by
  cases s with
  | pending => simp [ensure_server_ready] at h
  | published r => rw [channelStep_of_ne_pending _ _ (by simp)]; exact h
  | closed => rw [channelStep_of_ne_pending _ _ (by simp)]; exact h

theorem ensure_foldl_persist (evs : List ChannelEvent) (s : CellState)
    (v : Except String ServerReadyData)
    (h : ensure_server_ready s = some v) :
    ensure_server_ready (evs.foldl channelStep s) = some v := by
  induction evs generalizing s with
  | nil => exact h
  | cons e rest ih =>
    simp only [List.foldl_cons]
    exact ih (channelStep s e) (ensure_persist s v h e)

theorem ensure_take_mono (evs : List ChannelEvent) (i j : Nat)
    (hij : i ≤ j) (v : Except String ServerReadyData)
    (h : ensure_server_ready (runTrace (evs.take i)) = some v) :
    ensure_server_ready (runTrace (evs.take j)) = some v := by
  have h1 : (evs.take j).take i = evs.take i := by
    rw [List.take_take, Nat.min_eq_left hij]
  have hsplit : evs.take j = evs.take i ++ (evs.take j).drop i := by
    conv_lhs => rw [← List.take_append_drop i (evs.take j)]
    rw [h1]
  rw [hsplit]
  unfold runTrace
  rw [List.foldl_append]
  exact ensure_foldl_persist _ _ v h

/-! ## Health Prober (`url_is_localhost`, `check_server_health`) -/

/-- ASCII lowercasing of one character, as `eq_ignore_ascii_case` performs it. -/
def asciiLower (c : Char) : Char :=
  if 'A' ≤ c ∧ c ≤ 'Z' then Char.ofNat (c.toNat + 32) else c

/-- Embedding of `str::eq_ignore_ascii_case`. -/
def eqIgnoreAsciiCase (a b : List Char) : Prop :=
  a.map asciiLower = b.map asciiLower

instance (a b : List Char) : Decidable (eqIgnoreAsciiCase a b) := by
  unfold eqIgnoreAsciiCase; infer_instance

/--
A parsed `reqwest::Url`, as far as the probe inspects it: its host string
(`host_str()`, `none` for host-less URLs) and the outcome of
`host.parse::<std::net::IpAddr>()` on that host — `none` when the host is not
an IP literal, otherwise `some ip_is_loopback`.
-/
structure Url where
  host : Option (List Char)
  hostIpLoopback : Option Bool

/-- Embedding of `url_is_localhost` (lib.rs:209-216). -/
def url_is_localhost (u : Url) : Bool :=
  match u.host with
  | none => false
  | some h =>
    decide (eqIgnoreAsciiCase h "localhost".data) || (u.hostIpLoopback == some true)

/-- The `reqwest::Client` configuration accumulated by `check_server_health`
before building. -/
structure ClientBuilder where
  timeoutSecs : Nat
  noProxy : Bool
deriving DecidableEq

/-- The builder constructed at lib.rs:223-230: a 3-second timeout always, and
`no_proxy()` exactly when the parsed URL is a localhost/loopback target. -/
def buildClient (u : Url) : ClientBuilder :=
  let b : ClientBuilder := { timeoutSecs := 3, noProxy := false }
  if url_is_localhost u then { b with noProxy := true } else b

/--
Outcomes of the external effects `check_server_health` performs, in program
order: the URL parse, the client build, the join of `"/global/health"`, and
the request send (`none` models a connection failure or timeout, `some s` a
response with HTTP status `s`).
-/
structure HealthEnv where
  parsedUrl : Option Url
  buildOk : Bool
  joinOk : Bool
  sendStatus : Option Nat

/-- Model of `reqwest::StatusCode::is_success`: the 2xx range. -/
def statusIsSuccess (s : Nat) : Bool :=
  decide (200 ≤ s) && decide (s < 300)

/--
Embedding of `check_server_health` (lib.rs:218-249). Every `let ... else`
failure arm returns `false`; the credential, when supplied, only decorates the
request with a basic-auth header and does not change the control flow, so the
function is a total `Bool`.
-/
def check_server_health (env : HealthEnv) (password : Option String) : Bool :=
  match env.parsedUrl with
  | none => false
  | some url =>
    let _client := buildClient url
    let _auth := password.map (fun p => ("opencode", p))
    if !env.buildOk then false
    else if !env.joinOk then false
    else
      match env.sendStatus with
      | none => false
      | some status => statusIsSuccess status

/-! ## Connection Resolver (`setup_server_connection`, `spawn_local_server`) -/

/-- The sidecar polling interval, `Duration::from_millis(10)` (lib.rs:535). -/
def POLL_INTERVAL_MS : Nat := 10

/-- The spawn timeout, `Duration::from_secs(30)` (lib.rs:528), in ms. -/
def SPAWN_TIMEOUT_MS : Nat := 30000

/--
Environment of one `spawn_local_server` run: the outcome of the `n`-th health
probe, the extra time the `n`-th probe (and scheduling overhead) consumes
beyond the fixed sleep, the elapsed time already on the clock when the loop is
first entered, and the log contents `get_logs` reads on failure.
-/
structure SpawnEnv where
  probe : Nat → Bool
  probeMs : Nat → Nat
  startMs : Nat
  logs : List String

/-- Elapsed wall-clock ms at the `n`-th loop-head timeout check: each
iteration sleeps `POLL_INTERVAL_MS` and then probes. -/
def elapsedAt (env : SpawnEnv) : Nat → Nat
  | 0 => env.startMs
  | n + 1 => elapsedAt env n + POLL_INTERVAL_MS + env.probeMs n

/-- The failure message of `spawn_local_server` (lib.rs:529-532), carrying
the log snapshot. -/
def spawnErrorMsg (logs : List String) : String :=
  "Failed to spawn OpenCode Server. Logs:\n" ++ get_logs logs

/--
Embedding of the polling loop of `spawn_local_server` (lib.rs:526-541),
indexed by the iteration counter `n` with a fuel bound (`none` means the loop
is still running after `fuel` iterations). The loop first checks the elapsed
time against the timeout, then sleeps, then probes. `.ok ()` stands for
`Ok(child)` for the spawned child.
-/
def spawn_local_server_loop (env : SpawnEnv) : Nat → Nat → Option (Except String Unit)
  | _, 0 => none
  | n, fuel + 1 =>
    if elapsedAt env n > SPAWN_TIMEOUT_MS then
      some (.error (spawnErrorMsg env.logs))
    else if env.probe n then
      some (.ok ())
    else
      spawn_local_server_loop env (n + 1) fuel

/--
Environment of `setup_server_connection`'s local-spawn phase (lib.rs:489-515):
the chosen port, the initial probe of the constructed local URL
(`check_server_health(&local_url, None)`), the fresh credential
`uuid::Uuid::new_v4()` would produce, and the outcome of `spawn_local_server`.
-/
structure LocalEnv where
  port : Nat
  initialProbe : Bool
  freshPassword : String
  spawnResult : Except String Unit

/-- The constructed local URL `http://127.0.0.1:{port}` (lib.rs:491). -/
def localUrl (port : Nat) : String :=
  "http://127.0.0.1:" ++ toString port

/--
The local-spawn phase of `setup_server_connection` (lib.rs:489-515). Returns
`.ok (child?, data)` where `child? = some ()` exactly when a new process was
spawned; adopting an already-healthy server yields no child and no credential.
-/
def setupLocalPhase (env : LocalEnv) : Except String (Option Unit × ServerReadyData) :=
  if ¬ env.initialProbe then
    match env.spawnResult with
    | .ok _ =>
      .ok (some (), { url := localUrl env.port, password := some env.freshPassword })
    | .error err => .error err
  else
    .ok (none, { url := localUrl env.port, password := none })

/-- Dialog outcome as the custom-URL loop discriminates it (lib.rs:478-485):
a custom button name, or any other result. -/
inductive DialogOutcome where
  | custom (name : String)
  | other
deriving DecidableEq

/-- The `RETRY` button label (lib.rs:470). -/
def RETRY : String := "Retry"

/-- Environment of the custom-URL phase (lib.rs:457-487): the configured URL,
the outcome of the `n`-th probe of it, and the operator's `n`-th dialog
answer. -/
structure CustomEnv where
  url : String
  probe : Nat → Bool
  dialog : Nat → DialogOutcome

/-- Result of the custom-URL phase: a resolved target (with the spawned-child
slot, always `none` here), or a fall-through into the local-spawn phase. -/
inductive CustomOutcome where
  | resolved (child : Option Unit) (data : ServerReadyData)
  | fallThrough
deriving DecidableEq

/--
Embedding of the custom-URL loop of `setup_server_connection` (lib.rs:458-486)
at iteration `n` with a fuel bound (`none` means the loop is still running
after `fuel` iterations): a healthy probe resolves to the custom URL with no
credential and no child; otherwise the blocking dialog is shown, `Retry`
repeats the loop, and every other answer breaks into the local-spawn phase.
-/
def customLoop (env : CustomEnv) : Nat → Nat → Option CustomOutcome
  | _, 0 => none
  | n, fuel + 1 =>
    if env.probe n then
      some (.resolved none { url := env.url, password := none })
    else
      match env.dialog n with
      | .custom name => if name = RETRY then customLoop env (n + 1) fuel else some .fallThrough
      | .other => some .fallThrough

/-- Environment of a whole `setup_server_connection` call: an optional
configured custom URL with its probe/dialog oracles, and the local phase
environment. -/
structure SetupEnv where
  customEnv : Option CustomEnv
  localEnv : LocalEnv

/-- Embedding of `setup_server_connection` (lib.rs:453-515): the custom-URL
phase runs only when a custom URL is configured, and any non-resolved exit of
it falls through to the local-spawn phase. -/
def setup_server_connection (env : SetupEnv) (fuel : Nat) :
    Option (Except String (Option Unit × ServerReadyData)) :=
  match env.customEnv with
  | some cenv =>
    match customLoop cenv 0 fuel with
    | none => none
    | some (.resolved child data) => some (.ok (child, data))
    | some .fallThrough => some (setupLocalPhase env.localEnv)
  | none => some (setupLocalPhase env.localEnv)

/-! ### Resolver lemmas -/

theorem elapsedAt_ge (env : SpawnEnv) (n : Nat) :
    POLL_INTERVAL_MS * n ≤ elapsedAt env n := by
  induction n with
  | zero => simp [elapsedAt]
  | succ n ih =>
    unfold elapsedAt
    have h1 : POLL_INTERVAL_MS * (n + 1) = POLL_INTERVAL_MS * n + POLL_INTERVAL_MS := by
      ring
    omega

theorem spawnLoop_error_of_never (env : SpawnEnv)
    (hnever : ∀ n, elapsedAt env n ≤ SPAWN_TIMEOUT_MS → env.probe n = false) :
    ∀ d n, SPAWN_TIMEOUT_MS < elapsedAt env (n + d) →
      spawn_local_server_loop env n (d + 1) = some (.error (spawnErrorMsg env.logs)) := by
  intro d
  induction d with
  | zero =>
    intro n hlt
    rw [spawn_local_server_loop]
    simp only [Nat.add_zero] at hlt
    rw [if_pos hlt]
  | succ d ih =>
    intro n hlt
    rw [spawn_local_server_loop]
    by_cases htop : elapsedAt env n > SPAWN_TIMEOUT_MS
    · rw [if_pos htop]
    · rw [if_neg htop, hnever n (Nat.not_lt.mp htop)]
      simp only [Bool.false_eq_true, if_false]
      apply ih
      have : (n + 1) + d = n + (d + 1) := by omega
      rw [this]
      exact hlt

theorem spawnLoop_ok_of_first_success (env : SpawnEnv) :
    ∀ k n, env.probe (n + k) = true →
      (∀ m, m < k → env.probe (n + m) = false) →
      (∀ m, m ≤ k → elapsedAt env (n + m) ≤ SPAWN_TIMEOUT_MS) →
      spawn_local_server_loop env n (k + 1) = some (.ok ()) := by
  intro k
  induction k with
  | zero =>
    intro n hk _ hwin
    rw [spawn_local_server_loop]
    have h0 : ¬ elapsedAt env n > SPAWN_TIMEOUT_MS := by
      have := hwin 0 (Nat.le_refl 0)
      simpa using Nat.not_lt.mpr (by simpa using this)
    rw [if_neg h0]
    simp only [Nat.add_zero] at hk
    rw [hk]
    simp
  | succ k ih =>
    intro n hk hprev hwin
    rw [spawn_local_server_loop]
    have h0 : ¬ elapsedAt env n > SPAWN_TIMEOUT_MS := by
      have := hwin 0 (Nat.zero_le _)
      simpa using Nat.not_lt.mpr (by simpa using this)
    rw [if_neg h0]
    have hp0 : env.probe n = false := by
      have := hprev 0 (Nat.succ_pos k)
      simpa using this
    rw [hp0]
    simp only [Bool.false_eq_true, if_false]
    apply ih (n + 1)
    · have : (n + 1) + k = n + (k + 1) := by omega
      rw [this]
      exact hk
    · intro m hm
      have : (n + 1) + m = n + (m + 1) := by omega
      rw [this]
      exact hprev (m + 1) (by omega)
    · intro m hm
      have : (n + 1) + m = n + (m + 1) := by omega
      rw [this]
      exact hwin (m + 1) (by omega)

theorem customLoop_none_of_always_retry (env : CustomEnv)
    (h : ∀ m, env.probe m = false ∧ env.dialog m = .custom RETRY) :
    ∀ fuel n, customLoop env n fuel = none := by
  intro fuel
  induction fuel with
  | zero => intro n; rfl
  | succ fuel ih =>
    intro n
    rw [customLoop]
    rw [(h n).1, (h n).2]
    simp only [Bool.false_eq_true, if_false, if_pos rfl]
    exact ih (n + 1)

theorem normalize_bracket_fixed (h : Hostname) (hb : startsWithBracket h) :
    normalize_hostname_for_url h = h := by
  have h0 : h ≠ "0.0.0.0".data := by
    intro he
    subst he
    exact absurd hb (by decide)
  have h1 : h ≠ "::".data := by
    intro he
    subst he
    exact absurd hb (by decide)
  have h2 : ¬ (':' ∈ h ∧ ¬ startsWithBracket h) := by
    intro hc
    exact hc.2 hb
  simp only [normalize_hostname_for_url, if_neg h0, if_neg h1, if_neg h2]

/-! ## Claims -/

/-- C4: `normalize_hostname_for_url` maps `0.0.0.0` to `127.0.0.1`, `::` to
`[::1]`, `::1` to `[::1]`, leaves `example.com` unchanged, and leaves any
hostname already starting with `[` unchanged (no double-bracketing). -/
theorem C4_normalize_hostname_cases :
    normalize_hostname_for_url "0.0.0.0".data = "127.0.0.1".data ∧
    normalize_hostname_for_url "::".data = "[::1]".data ∧
    normalize_hostname_for_url "::1".data = "[::1]".data ∧
    normalize_hostname_for_url "example.com".data = "example.com".data ∧
    ∀ h : Hostname, startsWithBracket h → normalize_hostname_for_url h = h := by
  refine ⟨by decide, by decide, by decide, by decide, ?_⟩
  intro h hb
  exact normalize_bracket_fixed h hb

/-- Witness for C4 at the concrete bracketed hostname `[::1]`. -/
theorem C4_witness :
    normalize_hostname_for_url "[::1]".data = "[::1]".data :=
  C4_normalize_hostname_cases.2.2.2.2 "[::1]".data (by decide)

/-- C10: `normalize_hostname_for_url` is idempotent — every output either has
no colon or already starts with `[`, so a second application never changes
it. -/
theorem C10_normalize_idempotent (h : Hostname) :
    normalize_hostname_for_url (normalize_hostname_for_url h) =
      normalize_hostname_for_url h := by
  by_cases h0 : h = "0.0.0.0".data
  · subst h0
    decide
  by_cases h1 : h = "::".data
  · subst h1
    decide
  by_cases h2 : ':' ∈ h ∧ ¬ startsWithBracket h
  · have hout : normalize_hostname_for_url h = '[' :: h ++ [']'] := by
      simp only [normalize_hostname_for_url, if_neg h0, if_neg h1, if_pos h2]
    rw [hout]
    exact normalize_bracket_fixed _ rfl
  · have hout : normalize_hostname_for_url h = h := by
      simp only [normalize_hostname_for_url, if_neg h0, if_neg h1, if_neg h2]
    rw [hout]
    exact hout

/-- C3: appending `M > MAX_LOG_ENTRIES` entries leaves exactly the last
`MAX_LOG_ENTRIES` entries, as a contiguous suffix in original order, and the
`get_logs` snapshot is their concatenation as a single string. -/
theorem C3_log_ring_last_entries (es : List String)
    (h : MAX_LOG_ENTRIES < es.length) :
    buildLog es = es.drop (es.length - MAX_LOG_ENTRIES) ∧
    (buildLog es).length = MAX_LOG_ENTRIES ∧
    get_logs (buildLog es) = String.join (es.drop (es.length - MAX_LOG_ENTRIES)) := by
  have hb : buildLog es = es.drop (es.length - MAX_LOG_ENTRIES) :=
    buildLog_eq_lastN es
  refine ⟨hb, ?_, ?_⟩
  · rw [hb]
    simp only [List.length_drop]
    omega
  · rw [hb]
    rfl

/-- Witness for C3 at a concrete list of 201 entries. -/
theorem C3_witness :
    MAX_LOG_ENTRIES < (List.replicate 201 "x").length ∧
    (buildLog (List.replicate 201 "x") =
        (List.replicate 201 "x").drop
          ((List.replicate 201 "x").length - MAX_LOG_ENTRIES) ∧
      (buildLog (List.replicate 201 "x")).length = MAX_LOG_ENTRIES ∧
      get_logs (buildLog (List.replicate 201 "x")) =
        String.join
          ((List.replicate 201 "x").drop
            ((List.replicate 201 "x").length - MAX_LOG_ENTRIES))) := by
  have hlen : MAX_LOG_ENTRIES < (List.replicate 201 "x").length := by
    rw [List.length_replicate]
    decide
  exact ⟨hlen, C3_log_ring_last_entries _ hlen⟩

/-- C1: the Readiness Broadcaster publishes at most one result per run, and
any two consumers of `ensure_server_ready` that observe a value — whether
they read before or after publication — observe equal values. -/
theorem C1_broadcast_once_and_agree :
    (∀ evs : List ChannelEvent, countPublishes .pending evs ≤ 1) ∧
    (∀ (evs : List ChannelEvent) (i j : Nat)
      (v w : Except String ServerReadyData),
      ensure_server_ready (runTrace (evs.take i)) = some v →
      ensure_server_ready (runTrace (evs.take j)) = some w → v = w) := by
  refine ⟨countPublishes_le_one, ?_⟩
  intro evs i j v w hv hw
  rcases Nat.le_total i j with hij | hij
  · have := ensure_take_mono evs i j hij v hv
    rw [this] at hw
    exact (Option.some.injEq _ _).mp hw
  · have := ensure_take_mono evs j i hij w hw
    rw [this] at hv
    exact ((Option.some.injEq _ _).mp hv).symm

/-- Witness for C1: two consumers reading a concrete one-send trace at
different times observe the same value. -/
theorem C1_witness :
    (Except.ok { url := "http://127.0.0.1:8080", password := some "pw" } :
        Except String ServerReadyData) =
      .ok { url := "http://127.0.0.1:8080", password := some "pw" } :=
  C1_broadcast_once_and_agree.2
    [ChannelEvent.send (.ok { url := "http://127.0.0.1:8080", password := some "pw" })]
    1 2 _ _ rfl rfl

theorem runTrace_closed_of_drop (evs : List ChannelEvent)
    (hnosend : ∀ r, ChannelEvent.send r ∉ evs)
    (hdrop : ChannelEvent.dropSender ∈ evs) :
    runTrace evs = .closed := by
  unfold runTrace
  cases evs with
  | nil => simp at hdrop
  | cons e rest =>
    cases e with
    | send r => exact absurd (List.mem_cons_self _ _) (hnosend r)
    | dropSender =>
      simp only [List.foldl_cons]
      exact foldl_channelStep_of_ne_pending rest .closed (by simp)

/-- C9: when the sender is dropped without publishing, every pending and
every future consumer of `ensure_server_ready` observes the terminal error
"Failed to get server status" rather than waiting forever. -/
theorem C9_dropped_sender_error (evs : List ChannelEvent)
    (hnosend : ∀ r, ChannelEvent.send r ∉ evs)
    (hdrop : ChannelEvent.dropSender ∈ evs) :
    ensure_server_ready (runTrace evs) =
      some (.error "Failed to get server status") ∧
    ∀ extra : List ChannelEvent,
      ensure_server_ready (runTrace (evs ++ extra)) =
        some (.error "Failed to get server status") := by
  have hclosed : runTrace evs = .closed := runTrace_closed_of_drop evs hnosend hdrop
  constructor
  · rw [hclosed]
    rfl
  · intro extra
    unfold runTrace
    rw [List.foldl_append]
    unfold runTrace at hclosed
    rw [hclosed, foldl_channelStep_of_ne_pending extra .closed (by simp)]
    rfl

/-- Witness for C9 at the concrete one-event trace that only drops the
sender. -/
theorem C9_witness :
    ensure_server_ready (runTrace [ChannelEvent.dropSender]) =
      some (.error "Failed to get server status") :=
  (C9_dropped_sender_error [ChannelEvent.dropSender]
    (fun r hr => by simp at hr) (by simp)).1

/-- C2: `check_server_health` returns a plain boolean; a malformed URL, a
failed client build, a failed join, a connection failure or timeout, and a
non-success HTTP status each yield `false`. -/
theorem C2_health_failures_false (env : HealthEnv) (password : Option String) :
    (env.parsedUrl = none → check_server_health env password = false) ∧
    (env.buildOk = false → check_server_health env password = false) ∧
    (env.joinOk = false → check_server_health env password = false) ∧
    (env.sendStatus = none → check_server_health env password = false) ∧
    (∀ s, env.sendStatus = some s → statusIsSuccess s = false →
      check_server_health env password = false) := by
  obtain ⟨pu, bOk, jOk, ss⟩ := env
  refine ⟨?_, ?_, ?_, ?_, ?_⟩
  · intro hp
    simp only at hp
    subst hp
    rfl
  · intro hb
    simp only at hb
    subst hb
    cases pu <;> simp [check_server_health]
  · intro hj
    simp only at hj
    subst hj
    cases pu <;> cases bOk <;> simp [check_server_health]
  · intro hs
    simp only at hs
    subst hs
    cases pu <;> cases bOk <;> cases jOk <;> simp [check_server_health]
  · intro s hs hfail
    simp only at hs
    subst hs
    cases pu <;> cases bOk <;> cases jOk <;> simp [check_server_health, hfail]

/-- Witness for C2: each failure mode at a concrete environment. -/
theorem C2_witness :
    check_server_health ⟨none, true, true, some 200⟩ none = false ∧
    check_server_health ⟨some ⟨some "localhost".data, none⟩, false, true, some 200⟩
      (some "pw") = false ∧
    check_server_health ⟨some ⟨some "example.com".data, none⟩, true, false, some 200⟩
      none = false ∧
    check_server_health ⟨some ⟨none, none⟩, true, true, none⟩ none = false ∧
    check_server_health ⟨some ⟨some "127.0.0.1".data, some true⟩, true, true, some 503⟩
      none = false :=
  ⟨(C2_health_failures_false _ none).1 rfl,
   (C2_health_failures_false _ (some "pw")).2.1 rfl,
   (C2_health_failures_false _ none).2.2.1 rfl,
   (C2_health_failures_false _ none).2.2.2.1 rfl,
   (C2_health_failures_false _ none).2.2.2.2 503 rfl (by decide)⟩

/-- C8: the probe's client is built with `no_proxy` exactly when the target
host is the literal name `localhost` (ASCII-case-insensitively) or parses as
a loopback IP address; for every other host the proxy configuration is left
in effect. -/
theorem C8_no_proxy_iff_localhost (u : Url) :
    (buildClient u).noProxy = true ↔
      ∃ hs, u.host = some hs ∧
        (eqIgnoreAsciiCase hs "localhost".data ∨ u.hostIpLoopback = some true) := by
  have hnp : (buildClient u).noProxy = url_is_localhost u := by
    unfold buildClient
    by_cases hloc : url_is_localhost u
    · simp [hloc]
    · simp [hloc]
  rw [hnp]
  cases hh : u.host with
  | none =>
    simp [url_is_localhost, hh]
  | some hs =>
    simp only [url_is_localhost, hh, Bool.or_eq_true, decide_eq_true_eq, beq_iff_eq]
    constructor
    · intro hb
      exact ⟨hs, rfl, hb⟩
    · rintro ⟨hs2, heq, hor⟩
      rw [Option.some.injEq] at heq
      subst heq
      exact hor

/-- C5: the local-spawn polling loop sleeps 10ms per iteration; when no probe
ever succeeds it ends in the error carrying the log snapshot, that error
passes through the local phase unchanged (terminal, no retry) and, once
published, is what every broadcaster consumer observes; a first probe success
within the 30s window returns the spawned child. -/
theorem C5_spawn_timeout_or_success (env : SpawnEnv) :
    ((∀ n, elapsedAt env n ≤ SPAWN_TIMEOUT_MS → env.probe n = false) →
      spawn_local_server_loop env 0 3002 =
        some (.error (spawnErrorMsg env.logs))) ∧
    (∀ lenv : LocalEnv, lenv.initialProbe = false →
      lenv.spawnResult = .error (spawnErrorMsg env.logs) →
      setupLocalPhase lenv = .error (spawnErrorMsg env.logs)) ∧
    (∀ extra : List ChannelEvent,
      ensure_server_ready
        (runTrace (.send (.error (spawnErrorMsg env.logs)) :: extra)) =
        some (.error (spawnErrorMsg env.logs))) ∧
    (∀ k, env.probe k = true → (∀ m, m < k → env.probe m = false) →
      (∀ m, m ≤ k → elapsedAt env m ≤ SPAWN_TIMEOUT_MS) →
      spawn_local_server_loop env 0 (k + 1) = some (.ok ())) := by
  refine ⟨?_, ?_, ?_, ?_⟩
  · intro hnever
    apply spawnLoop_error_of_never env hnever 3001 0
    have hge := elapsedAt_ge env 3001
    simp only [POLL_INTERVAL_MS] at hge
    simp only [SPAWN_TIMEOUT_MS, Nat.zero_add]
    omega
  · intro lenv h1 h2
    simp [setupLocalPhase, h1, h2]
  · intro extra
    unfold runTrace
    simp only [List.foldl_cons]
    exact ensure_foldl_persist extra _ _ rfl
  · intro k hk hprev hwin
    apply spawnLoop_ok_of_first_success env k 0
    · simpa using hk
    · intro m hm
      simpa using hprev m hm
    · intro m hm
      simpa using hwin m hm

/-- Witness for C5 at concrete environments: an always-failing probe times
out with the log snapshot, an immediately healthy probe returns the child,
and a concrete spawn error passes through the local phase. -/
theorem C5_witness :
    spawn_local_server_loop ⟨fun _ => false, fun _ => 0, 0, ["[STDOUT] boot\n"]⟩ 0 3002 =
      some (.error (spawnErrorMsg ["[STDOUT] boot\n"])) ∧
    spawn_local_server_loop ⟨fun _ => true, fun _ => 0, 0, []⟩ 0 1 = some (.ok ()) ∧
    setupLocalPhase ⟨4096, false, "pw", .error (spawnErrorMsg [])⟩ =
      .error (spawnErrorMsg []) := by
  refine ⟨?_, ?_, ?_⟩
  · exact (C5_spawn_timeout_or_success _).1 (fun n _ => rfl)
  · exact (C5_spawn_timeout_or_success ⟨fun _ => true, fun _ => 0, 0, []⟩).2.2.2 0 rfl
      (fun m hm => absurd hm (Nat.not_lt_zero m))
      (fun m hm => by
        have hm0 : m = 0 := Nat.le_zero.mp hm
        subst hm0
        simp [elapsedAt, SPAWN_TIMEOUT_MS])
  · exact (C5_spawn_timeout_or_success ⟨fun _ => false, fun _ => 0, 0, []⟩).2.1
      ⟨4096, false, "pw", .error (spawnErrorMsg [])⟩ rfl rfl

/-- C6: in the local-spawn phase, a succeeding initial probe adopts the local
URL with no spawned process and no credential; a fresh credential and a spawn
happen only when that initial probe fails. -/
theorem C6_local_adopt_or_spawn (env : LocalEnv) :
    (env.initialProbe = true →
      setupLocalPhase env =
        .ok (none, { url := localUrl env.port, password := none })) ∧
    (env.initialProbe = false → env.spawnResult = .ok () →
      setupLocalPhase env =
        .ok (some (), { url := localUrl env.port, password := some env.freshPassword })) := by
  constructor
  · intro h1
    simp [setupLocalPhase, h1]
  · intro h1 h2
    simp [setupLocalPhase, h1, h2]

/-- Witness for C6 at concrete local-phase environments. -/
theorem C6_witness :
    setupLocalPhase ⟨8080, true, "pw", .ok ()⟩ =
      .ok (none, { url := localUrl 8080, password := none }) ∧
    setupLocalPhase ⟨8080, false, "pw", .ok ()⟩ =
      .ok (some (), { url := localUrl 8080, password := some "pw" }) :=
  ⟨(C6_local_adopt_or_spawn ⟨8080, true, "pw", .ok ()⟩).1 rfl,
   (C6_local_adopt_or_spawn ⟨8080, false, "pw", .ok ()⟩).2 rfl rfl⟩

/-- C7: in the custom-URL phase a healthy probe resolves to the custom URL
with no credential and no child; an unhealthy probe shows the dialog, only
the explicit `Retry` answer repeats the loop, any other answer falls through
to the local phase; the loop has no timeout or attempt bound — under
perpetual failure-and-retry it never terminates; and the phase is entered
only when a custom URL is configured. -/
theorem C7_custom_loop (env : CustomEnv) :
    (∀ n fuel, env.probe n = true →
      customLoop env n (fuel + 1) =
        some (.resolved none { url := env.url, password := none })) ∧
    (∀ n fuel, env.probe n = false → env.dialog n = .custom RETRY →
      customLoop env n (fuel + 1) = customLoop env (n + 1) fuel) ∧
    (∀ n fuel, env.probe n = false → env.dialog n ≠ .custom RETRY →
      customLoop env n (fuel + 1) = some .fallThrough) ∧
    ((∀ m, env.probe m = false ∧ env.dialog m = .custom RETRY) →
      ∀ fuel n, customLoop env n fuel = none) ∧
    (∀ (lenv : LocalEnv) (fuel : Nat),
      setup_server_connection ⟨none, lenv⟩ fuel = some (setupLocalPhase lenv)) := by
  refine ⟨?_, ?_, ?_, customLoop_none_of_always_retry env, fun lenv fuel => rfl⟩
  · intro n fuel hp
    rw [customLoop, hp]
    simp
  · intro n fuel hp hd
    rw [customLoop, hp, hd]
    simp [RETRY]
  · intro n fuel hp hd
    rw [customLoop, hp]
    simp only [Bool.false_eq_true, if_false]
    cases hdn : env.dialog n with
    | custom name =>
      rw [hdn] at hd
      have hne : name ≠ RETRY := by
        intro he
        subst he
        exact hd rfl
      show (if name = RETRY then customLoop env (n + 1) fuel
        else some CustomOutcome.fallThrough) = some CustomOutcome.fallThrough
      rw [if_neg hne]
    | other => rfl

/-- Witness for C7 at concrete probe and dialog oracles. -/
theorem C7_witness :
    customLoop ⟨"http://srv:1", fun _ => true, fun _ => .other⟩ 0 1 =
      some (.resolved none { url := "http://srv:1", password := none }) ∧
    customLoop ⟨"http://srv:1", fun _ => false, fun _ => .custom RETRY⟩ 0 3 =
      customLoop ⟨"http://srv:1", fun _ => false, fun _ => .custom RETRY⟩ 1 2 ∧
    customLoop ⟨"http://srv:1", fun _ => false, fun _ => .other⟩ 0 1 =
      some .fallThrough ∧
    customLoop ⟨"http://srv:1", fun _ => false, fun _ => .custom RETRY⟩ 0 50 = none ∧
    setup_server_connection ⟨none, ⟨8080, true, "pw", .ok ()⟩⟩ 0 =
      some (setupLocalPhase ⟨8080, true, "pw", .ok ()⟩) :=
  ⟨(C7_custom_loop _).1 0 0 rfl,
   (C7_custom_loop _).2.1 0 2 rfl rfl,
   (C7_custom_loop _).2.2.1 0 0 rfl (by decide),
   (C7_custom_loop _).2.2.2.1 (fun m => ⟨rfl, rfl⟩) 50 0,
   (C7_custom_loop ⟨"http://srv:1", fun _ => true, fun _ => .other⟩).2.2.2.2
     ⟨8080, true, "pw", .ok ()⟩ 0⟩

end Penguin
